import Mathlib

/-!
Verification of the focus_dashboard transcript pipeline (src/app.py).

The file shallowly embeds the four core functions of the source —
`generate_jwt`, `clean_kore_text`, `fetch_data`, `process_to_pairs` — as
executable Lean definitions and proves the frozen claims about them.

Conventions of the embedding:
* Python strings are Lean `String`; character-level work happens on `List Char`.
* Machine-facing impurity is made explicit: each call of `time.time()` becomes
  one integer parameter, the network becomes a list of page results handed to
  the fetch loop, and the raised-exception paths of the Python code become
  `Option`/outcome values.
* Functions that the Python runtime can abort with a `TypeError` (a non-string
  value flowing into `re.sub`) return `Option String`, where `none` is the
  exception.
* All recursion is structural (fuel-indexed where the Python loop is not
  structural), so every definition evaluates inside the kernel.
-/

namespace FocusDashboard

/-! ### Python string primitives -/

/-- Whitespace characters removed by the Python `str.strip` method
(the ASCII subset, which covers every payload the dashboard handles). -/
def isPyWhitespace (c : Char) : Bool :=
  c = ' ' || c = '\t' || c = '\n' || c = '\r' || c = '\x0b' || c = '\x0c'

/-- The character list of a string after Python `str.strip`. -/
def pyStripList (cs : List Char) : List Char :=
  ((cs.dropWhile isPyWhitespace).reverse.dropWhile isPyWhitespace).reverse

/-- Python `s.strip()`. -/
def pyStrip (s : String) : String :=
  ⟨pyStripList s.data⟩

/-- Python `pat in hay` on strings: `pat` occurs as a contiguous substring. -/
def containsSub (hay pat : List Char) : Bool :=
  pat.isPrefixOf hay ||
    match hay with
    | [] => false
    | _ :: t => containsSub t pat

/-- Fuel-indexed body of Python `hay.replace(pat, rep)` (leftmost,
non-overlapping, scanning left to right).  With `fuel ≥ hay.length` the fuel
never runs out; the identity lemmas below hold for every fuel. -/
def pyReplaceF (pat rep : List Char) : Nat → List Char → List Char
  | _, [] => []
  | 0, cs => cs
  | fuel + 1, c :: rest =>
    if pat ≠ [] ∧ pat.isPrefixOf (c :: rest) then
      rep ++ pyReplaceF pat rep fuel ((c :: rest).drop pat.length)
    else
      c :: pyReplaceF pat rep fuel rest

/-- Python `s.replace(pat, rep)` for a non-empty pattern. -/
def pyReplace (s pat rep : String) : String :=
  ⟨pyReplaceF pat.data rep.data s.data.length s.data⟩

/-- Does `cs` contain a substring matched by the regex `<[^>]+>`
(an opening angle bracket, one or more characters none of which is a closing
angle bracket, then a closing angle bracket)? -/
def hasTag : List Char → Bool
  | [] => false
  | c :: rest =>
    (c = '<' &&
      match rest.span (fun d => d ≠ '>') with
      | (_ :: _, _ :: _) => true
      | _ => false) ||
    hasTag rest

/-- Fuel-indexed body of the tag-stripping `re.sub` call: delete every substring
consisting of `<`, one or more non-`>` characters, and `>`, scanning from the
left.  With `fuel ≥ cs.length` the fuel never runs out. -/
def stripTagsF : Nat → List Char → List Char
  | _, [] => []
  | 0, cs => cs
  | fuel + 1, c :: rest =>
    if c = '<' then
      match rest.span (fun d => d ≠ '>') with
      | (_ :: _, _ :: rest') => stripTagsF fuel rest'
      | _ => c :: stripTagsF fuel rest
    else
      c :: stripTagsF fuel rest

/-- Model of the tag-stripping `re.sub` call on line 137 of src/app.py. -/
def stripTags (s : String) : String :=
  ⟨stripTagsF s.data.length s.data⟩

/-- Hexadecimal digit class `[0-9a-fA-F]` of the UUID regex. -/
def isHexDigit (c : Char) : Bool :=
  ('0' ≤ c && c ≤ '9') || ('a' ≤ c && c ≤ 'f') || ('A' ≤ c && c ≤ 'F')

/-- Model of `UUID_PATTERN.match` on an already-stripped string: the anchored regex
`8-4-4-4-12` of hex digit groups separated by dashes (line 110 of src/app.py).
Position 8, 13, 18 and 23 hold the dashes; every other of the 36 positions
holds a hex digit. -/
def uuidMatch (s : String) : Bool :=
  s.data.length = 36 &&
    (List.range 36).all fun i =>
      let c := s.data.getD i ' '
      if i = 8 || i = 13 || i = 18 || i = 23 then c = '-' else isHexDigit c

/-! ### JSON values and a model of `json.loads`

The source calls `json.loads` on payload strings whose stripped form starts
with an opening brace.  The parser below implements the JSON grammar
(objects, arrays, strings with escapes, numbers, `true`/`false`/`null`)
as a fuel-indexed recursive-descent parser; `fuel = length + 4` always
suffices because every parsing step consumes at least one character. -/

/-- A parsed JSON document.  Numbers keep their source lexeme: the dashboard
never computes with numeric payload values, it only moves them around. -/
inductive Json where
  | jstr (value : String) : Json
  | jnum (lexeme : String) : Json
  | jbool (value : Bool) : Json
  | jnull : Json
  | jarr (items : List Json) : Json
  | jobj (entries : List (String × Json)) : Json

/-- JSON inter-token whitespace. -/
def isJsonWs (c : Char) : Bool :=
  c = ' ' || c = '\t' || c = '\n' || c = '\r'

/-- Skip JSON whitespace. -/
def skipWs (cs : List Char) : List Char :=
  cs.dropWhile isJsonWs

/-- Value of a hexadecimal digit, if it is one. -/
def hexVal (c : Char) : Option Nat :=
  let n := c.toNat
  if 48 ≤ n ∧ n ≤ 57 then some (n - 48)
  else if 97 ≤ n ∧ n ≤ 102 then some (n - 87)
  else if 65 ≤ n ∧ n ≤ 70 then some (n - 55)
  else none

/-- Decimal digit test for the JSON number grammar. -/
def isDigit09 (c : Char) : Bool :=
  '0' ≤ c && c ≤ '9'

/-- Parse the contents of a JSON string literal after its opening quote,
returning the decoded characters and the input after the closing quote. -/
def parseStrChars : List Char → Option (List Char × List Char)
  | [] => none
  | '"' :: rest => some ([], rest)
  | '\\' :: rest =>
    match rest with
    | '"' :: r2 => (parseStrChars r2).map fun (cs, r) => ('"' :: cs, r)
    | '\\' :: r2 => (parseStrChars r2).map fun (cs, r) => ('\\' :: cs, r)
    | '/' :: r2 => (parseStrChars r2).map fun (cs, r) => ('/' :: cs, r)
    | 'b' :: r2 => (parseStrChars r2).map fun (cs, r) => ('\x08' :: cs, r)
    | 'f' :: r2 => (parseStrChars r2).map fun (cs, r) => ('\x0c' :: cs, r)
    | 'n' :: r2 => (parseStrChars r2).map fun (cs, r) => ('\n' :: cs, r)
    | 'r' :: r2 => (parseStrChars r2).map fun (cs, r) => ('\r' :: cs, r)
    | 't' :: r2 => (parseStrChars r2).map fun (cs, r) => ('\t' :: cs, r)
    | 'u' :: h1 :: h2 :: h3 :: h4 :: r2 =>
      match hexVal h1, hexVal h2, hexVal h3, hexVal h4 with
      | some a, some b, some c, some d =>
        (parseStrChars r2).map fun (cs, r) =>
          (Char.ofNat (((a * 16 + b) * 16 + c) * 16 + d) :: cs, r)
      | _, _, _, _ => none
    | _ => none
  | c :: rest =>
    if c.toNat < 32 then none
    else (parseStrChars rest).map fun (cs, r) => (c :: cs, r)

/-- Parse a JSON number lexeme (`-?(0|[1-9][0-9]*)(.[0-9]+)?([eE][+-]?[0-9]+)?`),
returning the lexeme and the remaining input. -/
def parseNum (cs : List Char) : Option (List Char × List Char) :=
  let (sign, cs1) :=
    match cs with
    | '-' :: r => (['-'], r)
    | _ => (([] : List Char), cs)
  match cs1 with
  | [] => none
  | c :: _ =>
    if ¬ isDigit09 c then none
    else
      let (intPart, cs2) :=
        if c = '0' then ([c], cs1.drop 1)
        else cs1.span isDigit09
      let (fracPart, cs3) :=
        match cs2 with
        | '.' :: r =>
          match r.span isDigit09 with
          | ([], _) => (none, cs2)
          | (ds, r2) => (some ('.' :: ds), r2)
        | _ => (none, cs2)
      match fracPart, cs3 with
      | none, '.' :: _ => none
      | _, _ =>
        let (expPart, cs4) :=
          match cs3 with
          | e :: r =>
            if e = 'e' || e = 'E' then
              let (es, r1) :=
                match r with
                | '+' :: r1 => (['+'], r1)
                | '-' :: r1 => (['-'], r1)
                | _ => (([] : List Char), r)
              match r1.span isDigit09 with
              | ([], _) => (none, cs3)
              | (ds, r2) => (some (e :: es ++ ds), r2)
            else (none, cs3)
          | _ => (none, cs3)
        match expPart, cs4 with
        | none, e :: _ =>
          if e = 'e' || e = 'E' then none
          else some (sign ++ intPart ++ (fracPart.getD []) ++ [], cs4)
        | _, _ =>
          some (sign ++ intPart ++ (fracPart.getD []) ++ (expPart.getD []), cs4)

/-- What the fuel-indexed parser is asked to produce next: a single value,
the remaining members of an object, or the remaining elements of an array. -/
inductive PReq where
  | val : PReq
  | members (acc : List (String × Json)) : PReq
  | elems (acc : List Json) : PReq

/-- Result of one parser request. -/
inductive PRes where
  | val (j : Json) : PRes
  | members (fields : List (String × Json)) : PRes
  | elems (elems : List Json) : PRes

/-- The recursive core of the `json.loads` model.  Requests for object
members and array elements are folded into the same fuel-indexed function so
that the recursion stays structural (on the fuel). -/
def parseF : Nat → PReq → List Char → Option (PRes × List Char)
  | 0, _, _ => none
  | fuel + 1, .val, cs =>
    match skipWs cs with
    | '"' :: rest => (parseStrChars rest).map fun (s, r) => (.val (.jstr ⟨s⟩), r)
    | '\x7b' :: rest =>
      match skipWs rest with
      | '\x7d' :: r2 => some (.val (.jobj []), r2)
      | r2 =>
        match parseF fuel (.members []) r2 with
        | some (.members fs, r3) => some (.val (.jobj fs), r3)
        | _ => none
    | '[' :: rest =>
      match skipWs rest with
      | ']' :: r2 => some (.val (.jarr []), r2)
      | r2 =>
        match parseF fuel (.elems []) r2 with
        | some (.elems es, r3) => some (.val (.jarr es), r3)
        | _ => none
    | 't' :: 'r' :: 'u' :: 'e' :: rest => some (.val (.jbool true), rest)
    | 'f' :: 'a' :: 'l' :: 's' :: 'e' :: rest => some (.val (.jbool false), rest)
    | 'n' :: 'u' :: 'l' :: 'l' :: rest => some (.val .jnull, rest)
    | rest => (parseNum rest).map fun (lex, r) => (.val (.jnum ⟨lex⟩), r)
  | fuel + 1, .members acc, cs =>
    match skipWs cs with
    | '"' :: rest =>
      match parseStrChars rest with
      | none => none
      | some (key, r1) =>
        match skipWs r1 with
        | ':' :: r2 =>
          match parseF fuel .val r2 with
          | some (.val v, r3) =>
            match skipWs r3 with
            | ',' :: r4 => parseF fuel (.members (acc ++ [(⟨key⟩, v)])) r4
            | '\x7d' :: r4 => some (.members (acc ++ [(⟨key⟩, v)]), r4)
            | _ => none
          | _ => none
        | _ => none
    | _ => none
  | fuel + 1, .elems acc, cs =>
    match parseF fuel .val cs with
    | some (.val v, r1) =>
      match skipWs r1 with
      | ',' :: r2 => parseF fuel (.elems (acc ++ [v])) r2
      | ']' :: r2 => some (.elems (acc ++ [v]), r2)
      | _ => none
    | _ => none

/-- Model of `json.loads`: parse one JSON document and require that only
whitespace follows it.  `none` is the `JSONDecodeError` path of the source. -/
def jsonLoads (s : String) : Option Json :=
  match parseF (s.data.length + 4) .val s.data with
  | some (.val j, rest) => if skipWs rest = [] then some j else none
  | _ => none

/-- Last binding of a key in a parsed object: `json.loads` builds a `dict`,
so a duplicated key keeps its last value. -/
def lookupField (fields : List (String × Json)) (k : String) : Option Json :=
  ((fields.filter fun f => f.1 = k).getLast?).map Prod.snd

/-- Fuel-indexed Python `repr` of a parsed JSON value, used only inside
`pyStr` below for the f-string rendering of a non-string `type` field.  The
fuel bounds the nesting depth; no payload the dashboard can meet exhausts it. -/
def pyReprF : Nat → Json → String
  | 0, _ => ""
  | _, .jnull => "None"
  | _, .jbool true => "True"
  | _, .jbool false => "False"
  | _, .jnum lexeme => lexeme
  | _, .jstr s => "\x27" ++ s ++ "\x27"
  | fuel + 1, .jarr es => "[" ++ ", ".intercalate (es.map (pyReprF fuel)) ++ "]"
  | fuel + 1, .jobj fs =>
    "\x7b" ++ ", ".intercalate (fs.map fun f => "\x27" ++ f.1 ++ "\x27: " ++ pyReprF fuel f.2) ++ "\x7d"

/-- Python `str()` of a parsed JSON value, as interpolated by the f-string
on line 133 of src/app.py. -/
def pyStr : Json → String
  | .jnull => "None"
  | .jbool true => "True"
  | .jbool false => "False"
  | .jnum lexeme => lexeme
  | .jstr s => s
  | .jarr es => pyReprF 1000 (.jarr es)
  | .jobj fs => pyReprF 1000 (.jobj fs)

/-! ### Text normalizer (`clean_kore_text`, lines 124-139 of src/app.py) -/

/-- Outcome of the JSON-handling block of `clean_kore_text` (lines 127-134):
`inl t` continues into the tag/entity pass with working text `t`, `inr out`
returns `out` directly (the interactive short-circuit), `none` means the
extracted `text` field was not a string, so the following `re.sub` raises a
`TypeError` outside the `try` block.  Every exception raised inside the
`try` block itself (parse failure, or the membership test and `.get` calls on
a non-dict value) is swallowed by `except: pass`, falling through with the
original text. -/
def jsonStage (raw : String) : Option (String ⊕ String) :=
  if (pyStripList raw.data).headD ' ' = '\x7b' then
    match jsonLoads raw with
    | some (.jobj fields) =>
      match lookupField fields "text" with
      | some (.jstr t) => some (.inl t)
      | some _ => none
      | none =>
        match lookupField fields "payload" with
        | some _ =>
          some (.inr ("[Interactive: " ++
            (match lookupField fields "type" with
             | some v => pyStr v
             | none => "template") ++ "]"))
        | none => some (.inl raw)
    | _ => some (.inl raw)
  else some (.inl raw)

/-- The entity pass of line 138: replace `&nbsp;`, `&amp;`, `&quot;` in that
order. -/
def fixEntities (s : String) : String :=
  pyReplace (pyReplace (pyReplace s "&nbsp;" " ") "&amp;" "&") "&quot;" "\""

/-- Model of `clean_kore_text` (lines 124-139 of src/app.py).  `none` models the
`TypeError` the Python function raises when the unwrapped `text` field is not
a string. -/
def clean_kore_text (raw : String) : Option String :=
  if raw = "" then some ""
  else
    match jsonStage raw with
    | none => none
    | some (.inr out) => some out
    | some (.inl t) => some (fixEntities (stripTags t))

/-! ### Token issuer (`generate_jwt`, lines 115-122 of src/app.py) -/

/-- The claim set of the token.  Field names follow the payload dict. -/
structure JwtPayload where
  appId : String
  sub : String
  iat : Int
  exp : Int
deriving DecidableEq

/-- The claim set built by `generate_jwt`.  The source evaluates
`int(time.time())` twice — once for the issued-at claim on line 119 and once
for the expiry claim on line 120 — so the embedding takes one parameter per
reading: `t1` is the first truncated clock value, `t2` the second. -/
def generate_jwt_payload (client_id : String) (t1 t2 : Int) : JwtPayload :=
  { appId := client_id, sub := "bot-auth", iat := t1, exp := t2 + 3600 }

/-! ### Transcript fetcher (`fetch_data`, lines 144-234 of src/app.py)

The network is made explicit: the loop consumes a list of page results, one
per request it makes.  A `PageResult.exn` is any exception raised inside the
`try` block before the page is processed (connection failure, timeout,
malformed response body).  The Streamlit progress calls are display-only and
are dropped from the embedding; the `@st.cache_data` decorator is external
memoization around the function and does not change its value. -/

/-- Sender classification used by both pipeline stages. -/
inductive Sender where
  | USER : Sender
  | BOT : Sender
deriving DecidableEq

/-- One entry of the `components` list of a raw API message.  `dataText` is
`component.get("data", \x7b\x7d).get("text", "")` before the default is
applied: `none` when the data object or its text field is absent.  Per the
API shape (§6 of the spec) a present text field is a string. -/
structure KoreComponent where
  dataText : Option String
deriving DecidableEq

/-- A raw message as delivered by the transcript API.  Each field is `none`
when the corresponding key is absent from the message dict. -/
structure RawMessage where
  createdOn : Option String
  sessionId : Option String
  createdBy : Option String
  type : Option String
  components : List KoreComponent
deriving DecidableEq

/-- The record appended to `all_messages` on lines 212-218 of src/app.py.
`Timestamp` is `msg.get("createdOn")`, which has no default. -/
structure FetchedMessage where
  Timestamp : Option String
  SessionID : String
  UserID : String
  Sender : Sender
  Message : String
deriving DecidableEq

/-- Raw text extraction of lines 201-203: the text of the first component,
with empty-string defaults when the components list is missing or empty or
the nested fields are absent. -/
def extractRawText (m : RawMessage) : String :=
  match m.components with
  | [] => ""
  | c :: _ => c.dataText.getD ""

/-- The literal marker filtered on line 210 of src/app.py. -/
def userDetailsMarker : String := "@@userdetailspayload@@"

/-- Per-message stage of the fetch loop (lines 200-218): normalize, filter,
and build the emitted record.  `none` is an exception escaping
`clean_kore_text` (it aborts the whole page); `some none` is a filtered-out
message; `some (some fm)` is an emitted record. -/
def normalizeMsg (m : RawMessage) : Option (Option FetchedMessage) :=
  match clean_kore_text (extractRawText m) with
  | none => none
  | some final_text =>
    let stripped := pyStrip final_text
    if final_text = "" then some none
    else if uuidMatch stripped then some none
    else if containsSub stripped.data userDetailsMarker.data then some none
    else
      some (some
        { Timestamp := m.createdOn
          SessionID := m.sessionId.getD "unknown"
          UserID := m.createdBy.getD "system"
          Sender := if m.type = some "incoming" then .USER else .BOT
          Message := final_text })

/-- Process the message list of one page.  The boolean is `false` when an
exception aborted the page; the records emitted before the abort are kept,
exactly as the Python appends into `all_messages` survive the `break`. -/
def processPage : List RawMessage → List FetchedMessage × Bool
  | [] => ([], true)
  | m :: rest =>
    match normalizeMsg m with
    | none => ([], false)
    | some none => processPage rest
    | some (some fm) =>
      let (ms, ok) := processPage rest
      (fm :: ms, ok)

/-- The JSON body POSTed for one page (lines 165-171 of src/app.py).
`forward` carries the JSON value the source puts in the dict, which is the
string literal `"false"`, not a boolean. -/
structure RequestBody where
  skip : Nat
  limit : Nat
  dateFrom : String
  dateTo : String
  forward : Json

/-- Body of a successful HTTP response: the messages list (default empty)
and the `moreAvailable` flag, `none` when the key is absent. -/
structure PageBody where
  messages : List RawMessage
  moreAvailable : Option Bool

/-- One network interaction: an HTTP response with a status code, or an
exception raised before the response was processed. -/
inductive PageResult where
  | http (status : Nat) (body : PageBody) : PageResult
  | exn : PageResult

/-- How the pagination loop ended.  `serverSilent` is the model artifact for
an environment list that ran out while the loop still wanted a page; a real
server always answers, so no claim rests on it. -/
inductive FetchOutcome where
  | done : FetchOutcome
  | httpError (status : Nat) : FetchOutcome
  | transportError : FetchOutcome
  | serverSilent : FetchOutcome
deriving DecidableEq

/-- Result of a fetch: the accumulated records, the request bodies issued in
order, and how the loop ended. -/
structure FetchOut where
  messages : List FetchedMessage
  requests : List RequestBody
  outcome : FetchOutcome

/-- A calendar date as handed to `fetch_data` by the date pickers. -/
structure PyDate where
  year : Nat
  month : Nat
  day : Nat

/-- Two-digit zero-padded field of `strftime` (`%m`, `%d`). -/
def pad2 (n : Nat) : String :=
  if n < 10 then "0" ++ toString n else toString n

/-- Model of `strftime` with format `%Y-%m-%d`: the year in full decimal, month and day
zero-padded to two digits. -/
def strftimeYMD (d : PyDate) : String :=
  toString d.year ++ "-" ++ pad2 d.month ++ "-" ++ pad2 d.day

/-- The request body built with offset `skip` (lines 165-171). -/
def mkRequest (dateFrom dateTo : String) (skip : Nat) : RequestBody :=
  { skip := skip, limit := 100, dateFrom := dateFrom, dateTo := dateTo,
    forward := Json.jstr "false" }

/-- The pagination loop of lines 163-231, recursing over the remaining
network interactions with the current offset. -/
def fetchPages (dateFrom dateTo : String) : List PageResult → Nat → FetchOut
  | [], _ => { messages := [], requests := [], outcome := .serverSilent }
  | .exn :: _, skip =>
    { messages := [], requests := [mkRequest dateFrom dateTo skip],
      outcome := .transportError }
  | .http status body :: rest, skip =>
    if status ≠ 200 then
      { messages := [], requests := [mkRequest dateFrom dateTo skip],
        outcome := .httpError status }
    else if ¬ (processPage body.messages).2 then
      { messages := (processPage body.messages).1,
        requests := [mkRequest dateFrom dateTo skip],
        outcome := .transportError }
    else if body.moreAvailable.getD false then
      { messages := (processPage body.messages).1 ++
          (fetchPages dateFrom dateTo rest (skip + 100)).messages,
        requests := mkRequest dateFrom dateTo skip ::
          (fetchPages dateFrom dateTo rest (skip + 100)).requests,
        outcome := (fetchPages dateFrom dateTo rest (skip + 100)).outcome }
    else
      { messages := (processPage body.messages).1,
        requests := [mkRequest dateFrom dateTo skip],
        outcome := .done }

/-- Model of `fetch_data` (lines 144-234): one token is minted, then the loop starts
at offset 0 with page size 100. -/
def fetch_data (dateFrom dateTo : PyDate) (net : List PageResult) : FetchOut :=
  fetchPages (strftimeYMD dateFrom) (strftimeYMD dateTo) net 0

/-- Number of pages the loop attempts (one request each): it walks the
network interactions until a page fails, a page processes with an exception,
or a page reports no more data. -/
def numAttempts : List PageResult → Nat
  | [] => 0
  | .exn :: _ => 1
  | .http status body :: rest =>
    if status ≠ 200 then 1
    else if ¬ (processPage body.messages).2 then 1
    else if body.moreAvailable.getD false then 1 + numAttempts rest
    else 1

/-- A page after which the loop continues: HTTP 200, the message loop raised
no exception, and `moreAvailable` (defaulting to `false` when absent) is
true. -/
def pageContinues : PageResult → Bool
  | .http status body =>
    status = 200 && (processPage body.messages).2 && body.moreAvailable.getD false
  | .exn => false

/-- A page the loop processes without error: HTTP 200 and a clean message
loop. -/
def pageOk : PageResult → Bool
  | .http status body => status = 200 && (processPage body.messages).2
  | .exn => false

/-- Outcomes that report an error to the caller. -/
def isErrorOutcome : FetchOutcome → Bool
  | .httpError _ => true
  | .transportError => true
  | _ => false

/-! ### Pair reconstructor (`process_to_pairs`, lines 239-287 of src/app.py)

Timestamps are an abstract linearly ordered type `τ`.  The source sorts the
per-session lists with the stable `list.sort` on the raw timestamp values and
the final table with `pandas.sort_values` on their datetime conversion; the
embedding uses one order for both, which is faithful whenever the timestamp
strings compare consistently with the instants they denote (the API delivers
ISO-ordered values).  `sort_values` with the default quicksort leaves the
relative order of equal timestamps unspecified; the embedding fixes the
stable order, a choice no claim depends on (§9 of the spec records the tie as
an acknowledged ambiguity). -/

/-- The message record consumed by `process_to_pairs`, with the timestamp
abstracted to an ordered type. -/
structure NormalizedMessage (τ : Type) where
  Timestamp : τ
  SessionID : String
  UserID : String
  Sender : Sender
  Message : String
deriving DecidableEq

/-- One reconstructed query/response pair. -/
structure ConversationPair (τ : Type) where
  Timestamp : τ
  SessionID : String
  UserID : String
  Query : String
  Response : String
deriving DecidableEq

/-- The sentinel query of a bot-initiated pair (line 272 of src/app.py). -/
def sentinelQuery : String := "(Bot Initiated / Welcome)"

/-- Append a message to the group of its key inside an insertion-ordered
association list, creating the group at the end if the key is new.  This is
`defaultdict(list)` plus `append`, with the Python-3.7 dict iteration order. -/
def addToGroups (k : String) (m : α) : List (String × List α) → List (String × List α)
  | [] => [(k, [m])]
  | (k', ms) :: rest =>
    if k' = k then (k', ms ++ [m]) :: rest
    else (k', ms) :: addToGroups k m rest

variable {τ : Type} [LinearOrder τ]

/-- The session grouping of lines 240-242. -/
def groupBySession (msgs : List (NormalizedMessage τ)) :
    List (String × List (NormalizedMessage τ)) :=
  msgs.foldl (fun acc m => addToGroups m.SessionID m acc) []

/-- Model of the `chats.sort` call on the Timestamp key (line 247): a stable ascending
sort on the timestamp. -/
def sortByTimestamp (chats : List (NormalizedMessage τ)) :
    List (NormalizedMessage τ) :=
  chats.insertionSort fun a b => a.Timestamp ≤ b.Timestamp

/-- The per-session walk of lines 248-276, carrying the open pair.  A USER
message closes any open pair and opens a fresh one; a BOT message extends the
open pair (joining consecutive replies with `" \n "`) or, with no open pair,
immediately emits a terminal sentinel pair; the open pair is closed when the
session ends. -/
def walkSession (sid : String) :
    List (NormalizedMessage τ) → Option (ConversationPair τ) → List (ConversationPair τ)
  | [], none => []
  | [], some p => [p]
  | m :: rest, cur =>
    match m.Sender with
    | .USER =>
      cur.toList ++ walkSession sid rest (some
        { Timestamp := m.Timestamp, SessionID := sid, UserID := m.UserID,
          Query := m.Message, Response := "" })
    | .BOT =>
      match cur with
      | some p =>
        walkSession sid rest (some
          { p with Response :=
              if p.Response ≠ "" then p.Response ++ " \n " ++ m.Message
              else m.Message })
      | none =>
        { Timestamp := m.Timestamp, SessionID := sid, UserID := m.UserID,
          Query := sentinelQuery, Response := m.Message } ::
          walkSession sid rest none

/-- The `final_pairs` list as it stands on line 278, before the sentinel
filter: sessions in first-seen order, each sorted by timestamp and walked. -/
def rawPairs (msgs : List (NormalizedMessage τ)) : List (ConversationPair τ) :=
  (groupBySession msgs).foldl
    (fun acc g => acc ++ walkSession g.1 (sortByTimestamp g.2) none) []

/-- Model of `process_to_pairs` (lines 239-287): build the pairs, drop the sentinel
rows, sort the remainder descending by timestamp.  The empty-dataframe
returns of the source coincide with the empty list here. -/
def process_to_pairs (msgs : List (NormalizedMessage τ)) :
    List (ConversationPair τ) :=
  ((rawPairs msgs).filter fun p => p.Query ≠ sentinelQuery).insertionSort
    fun a b => b.Timestamp ≤ a.Timestamp

/-! ### Reference-level model of `process_to_pairs`

Python passes `raw_data` by reference: the cached list and its message dicts
are shared with the caller, and any in-place mutation would corrupt the
`st.cache_data` entry.  To state that no such mutation happens, the walk is
repeated one level lower: the heap of message records is explicit, the
list of the caller is a list of references into it, and every statement of the
source maps to an operation on references — `sessions[...].append(msg)`
appends a reference to a fresh per-session list, `chats.sort` reorders that
fresh list, and pair construction allocates new records.  The function
returns the heap as the call leaves it. -/

instance [Inhabited τ] : Inhabited (NormalizedMessage τ) :=
  ⟨{ Timestamp := default, SessionID := "", UserID := "", Sender := .BOT,
     Message := "" }⟩

/-- Dereference a message handle (a Python variable naming a dict). -/
def lookupMsg [Inhabited τ] (store : List (NormalizedMessage τ)) (i : Nat) :
    NormalizedMessage τ :=
  (store.get? i).getD default

/-- Line 240-242 on references: group the handles by the session of the
record they point to. -/
def groupRefs [Inhabited τ] (store : List (NormalizedMessage τ)) (raw : List Nat) :
    List (String × List Nat) :=
  raw.foldl (fun acc i => addToGroups (lookupMsg store i).SessionID i acc) []

/-- Line 247 on references: sort the fresh per-session list of handles by the
timestamp of the records they point to.  The store is only read. -/
def sortRefs [Inhabited τ] (store : List (NormalizedMessage τ)) (is : List Nat) :
    List Nat :=
  is.insertionSort fun i j =>
    (lookupMsg store i).Timestamp ≤ (lookupMsg store j).Timestamp

/-- Lines 248-276 on references: every field access dereferences the store. -/
def walkRefs [Inhabited τ] (store : List (NormalizedMessage τ)) (sid : String) :
    List Nat → Option (ConversationPair τ) → List (ConversationPair τ)
  | [], none => []
  | [], some p => [p]
  | i :: rest, cur =>
    match (lookupMsg store i).Sender with
    | .USER =>
      cur.toList ++ walkRefs store sid rest (some
        { Timestamp := (lookupMsg store i).Timestamp, SessionID := sid,
          UserID := (lookupMsg store i).UserID,
          Query := (lookupMsg store i).Message, Response := "" })
    | .BOT =>
      match cur with
      | some p =>
        walkRefs store sid rest (some
          { p with Response :=
              if p.Response ≠ "" then
                p.Response ++ " \n " ++ (lookupMsg store i).Message
              else (lookupMsg store i).Message })
      | none =>
        { Timestamp := (lookupMsg store i).Timestamp, SessionID := sid,
          UserID := (lookupMsg store i).UserID, Query := sentinelQuery,
          Response := (lookupMsg store i).Message } ::
          walkRefs store sid rest none

/-- Model of `process_to_pairs` at the reference level: takes the heap of message
records and the handles of the list of the caller, returns the pairs together
with the heap as the call leaves it.  No statement of lines 239-287 writes
through a message handle or into the list of the caller, so the heap passes
through every step unchanged. -/
def process_to_pairs_refs [Inhabited τ] (store : List (NormalizedMessage τ))
    (raw : List Nat) : List (ConversationPair τ) × List (NormalizedMessage τ) :=
  let fp := (groupRefs store raw).foldl
    (fun acc g => acc ++ walkRefs store g.1 (sortRefs store g.2) none) []
  ((fp.filter fun p => p.Query ≠ sentinelQuery).insertionSort
    (fun a b => b.Timestamp ≤ a.Timestamp), store)

/-- A concrete incoming raw message with a plain text payload, used by the
witness instances below. -/
def sampleRawMessage : RawMessage :=
  { createdOn := some "t1", sessionId := some "s1", createdBy := some "u1",
    type := some "incoming", components := [{ dataText := some "hi" }] }

/-- A concrete page carrying `sampleRawMessage` and announcing more data. -/
def samplePage : PageBody :=
  { messages := [sampleRawMessage], moreAvailable := some true }

/-- A concrete empty page announcing no more data. -/
def lastPage : PageBody :=
  { messages := [], moreAvailable := some false }

/-! ### Helper lemmas -/

/-- Python `str.replace` leaves a string untouched when the pattern does not occur
in it, for every fuel value. -/
theorem pyReplaceF_id (pat rep : List Char) :
    ∀ (fuel : Nat) (cs : List Char), containsSub cs pat = false →
      pyReplaceF pat rep fuel cs = cs := by
  intro fuel
  induction fuel with
  | zero => intro cs _; cases cs <;> rfl
  | succ n ih =>
    intro cs hc
    cases cs with
    | nil => rfl
    | cons c rest =>
      rw [containsSub] at hc
      simp only [Bool.or_eq_false_iff] at hc
      rw [pyReplaceF, if_neg, ih rest hc.2]
      intro h
      rw [h.2] at hc
      exact absurd hc.1 (by simp)

/-- The string form of `pyReplaceF_id`. -/
theorem pyReplace_id (s pat rep : String) (h : containsSub s.data pat.data = false) :
    pyReplace s pat rep = s := by
  rw [pyReplace, pyReplaceF_id pat.data rep.data _ _ h]

/-- Stripping tags leaves a string untouched when it contains no substring
matching the tag regex, for every fuel value. -/
theorem stripTagsF_id :
    ∀ (fuel : Nat) (cs : List Char), hasTag cs = false →
      stripTagsF fuel cs = cs := by
  intro fuel
  induction fuel with
  | zero => intro cs _; cases cs <;> rfl
  | succ n ih =>
    intro cs hc
    cases cs with
    | nil => rfl
    | cons c rest =>
      rw [hasTag] at hc
      simp only [Bool.or_eq_false_iff] at hc
      rw [stripTagsF]
      by_cases hlt : c = '<'
      · rw [if_pos hlt]
        rcases hspan : rest.span (fun d => d ≠ '>') with ⟨before, after⟩
        have hmatch := hc.1
        rw [hlt, hspan] at hmatch
        simp only [decide_True, Bool.true_and] at hmatch
        cases before with
        | nil => simp only []; rw [ih rest hc.2]
        | cons b bs =>
          cases after with
          | nil => simp only []; rw [ih rest hc.2]
          | cons a as => simp at hmatch
      · rw [if_neg hlt, ih rest hc.2]

/-- The string form of `stripTagsF_id`. -/
theorem stripTags_id (s : String) (h : hasTag s.data = false) : stripTags s = s := by
  rw [stripTags, stripTagsF_id _ _ h]

/-- The entity pass leaves a string untouched when none of the three entity
sequences occurs in it. -/
theorem fixEntities_id (s : String)
    (h1 : containsSub s.data "&nbsp;".data = false)
    (h2 : containsSub s.data "&amp;".data = false)
    (h3 : containsSub s.data "&quot;".data = false) :
    fixEntities s = s := by
  rw [fixEntities, pyReplace_id s _ _ h1, pyReplace_id s _ _ h2, pyReplace_id s _ _ h3]

/-! ### C3 — token issuer -/

/-- C3, counterexample: the source reads the clock once for the issued-at
claim and again for the expiry claim; when the second reading lands on the
next second (first reading 0, second reading 1), the produced claim set has
expiry minus issued-at equal to 3601, not 3600. -/
theorem generate_jwt_gap_counterexample :
    (generate_jwt_payload "app" 0 1).exp - (generate_jwt_payload "app" 0 1).iat ≠ 3600 := by
  decide

/-- C3, amended: for every call, the claim set has subject `"bot-auth"`,
appId equal to the given application id, and expiry minus issued-at equal to
`3600 + (t2 - t1)` where `t1` and `t2` are the two truncated clock readings
the call makes — exactly 3600 whenever both readings coincide. -/
theorem generate_jwt_claims_spec (client_id : String) (t1 t2 : Int) :
    (generate_jwt_payload client_id t1 t2).appId = client_id ∧
    (generate_jwt_payload client_id t1 t2).sub = "bot-auth" ∧
    (generate_jwt_payload client_id t1 t2).exp - (generate_jwt_payload client_id t1 t2).iat =
      3600 + (t2 - t1) := by
  refine ⟨rfl, rfl, ?_⟩
  simp only [generate_jwt_payload]
  omega

/-! ### C4 — the normalizer is the identity on plain strings -/

/-- C4: `normalize(s) == s` for every non-empty plain string: one that is not
a JSON envelope (its stripped form does not start with an opening brace, or
it fails to parse), contains no substring matching the tag regex, and
contains none of the three entity sequences. -/
theorem clean_kore_text_plain_id (s : String)
    (hne : s ≠ "")
    (hplain : (pyStripList s.data).headD ' ' ≠ '\x7b' ∨ jsonLoads s = none)
    (htag : hasTag s.data = false)
    (h1 : containsSub s.data "&nbsp;".data = false)
    (h2 : containsSub s.data "&amp;".data = false)
    (h3 : containsSub s.data "&quot;".data = false) :
    clean_kore_text s = some s := by
  have hstage : jsonStage s = some (.inl s) := by
    rw [jsonStage]
    by_cases hb : (pyStripList s.data).headD ' ' = '\x7b'
    · rw [if_pos hb]
      rcases hplain with hp | hp
      · exact absurd hb hp
      · rw [hp]
    · rw [if_neg hb]
  rw [clean_kore_text, if_neg hne, hstage]
  show some (fixEntities (stripTags s)) = some s
  rw [stripTags_id s htag, fixEntities_id s h1 h2 h3]

/-- C4, witness at `s = "hello world"`. -/
theorem clean_kore_text_plain_id_witness :
    clean_kore_text "hello world" = some "hello world" :=
  clean_kore_text_plain_id "hello world" (by decide) (Or.inl (by decide))
    (by decide) (by decide) (by decide) (by decide)

/-! ### C5 — the normalizer on a JSON envelope with markup -/

/-- C5: the JSON envelope is unwrapped to its text field, the angle-bracket
tags are removed, and the entity `&amp;` is decoded, giving `"Hi&bye"`. -/
theorem clean_kore_text_envelope_example :
    clean_kore_text "\x7b\"text\": \"<b>Hi</b>&amp;bye\"\x7d" = some "Hi&bye" := by
  decide

/-! ### C6 — drop/emit behavior of the fetch filter stage -/

/-- C6: for a raw message whose payload normalizes (to `t`), the fetcher
drops it exactly when the normalized text is empty, or its stripped form
matches the UUID pattern, or its stripped form contains the user-details
marker; otherwise it emits exactly one record whose Sender is `USER` when the
direction flag equals `"incoming"` and `BOT` otherwise. -/
theorem normalizeMsg_filter_spec (m : RawMessage) (t : String)
    (h : clean_kore_text (extractRawText m) = some t) :
    (normalizeMsg m = some none ↔
      (t = "" ∨ uuidMatch (pyStrip t) = true ∨
        containsSub (pyStrip t).data userDetailsMarker.data = true)) ∧
    (normalizeMsg m = some none ∨
      normalizeMsg m = some (some
        { Timestamp := m.createdOn, SessionID := m.sessionId.getD "unknown",
          UserID := m.createdBy.getD "system",
          Sender := if m.type = some "incoming" then .USER else .BOT,
          Message := t })) := by
  rw [normalizeMsg, h]
  by_cases he : t = ""
  · simp [he]
  · by_cases hu : uuidMatch (pyStrip t) = true
    · simp [he, hu]
    · by_cases hm : containsSub (pyStrip t).data userDetailsMarker.data = true
      · simp [he, hu, hm]
      · simp [he, hu, hm]

/-- C6, witness: a plain `"hello"` payload on an incoming message is emitted
as a USER record, and the drop criterion evaluates to false for it. -/
theorem normalizeMsg_filter_spec_witness :
    normalizeMsg
        { createdOn := some "2026-01-01T10:00:00", sessionId := some "s1",
          createdBy := some "u1", type := some "incoming",
          components := [{ dataText := some "hello" }] } = some none ∨
    normalizeMsg
        { createdOn := some "2026-01-01T10:00:00", sessionId := some "s1",
          createdBy := some "u1", type := some "incoming",
          components := [{ dataText := some "hello" }] } =
      some (some
        { Timestamp := some "2026-01-01T10:00:00", SessionID := "s1",
          UserID := "u1",
          Sender := if (some "incoming" : Option String) = some "incoming" then .USER else .BOT,
          Message := "hello" }) :=
  (normalizeMsg_filter_spec _ "hello" (by decide)).2

/-! ### Fetch-loop lemmas -/

/-- Consing a request onto the offset sequence starting 100 later gives the
offset sequence one element longer. -/
theorem mkRequest_seq_cons (df dt : String) (skip n : Nat) :
    mkRequest df dt skip ::
        (List.range n).map (fun i => mkRequest df dt (skip + 100 + 100 * i)) =
      (List.range (n + 1)).map (fun i => mkRequest df dt (skip + 100 * i)) := by
  rw [List.range_succ_eq_map, List.map_cons, List.map_map]
  refine congrArg₂ _ (by simp) ?_
  refine (List.map_congr_left ?_).symm
  intro i _
  simp only [Function.comp_apply]
  exact congrArg (mkRequest df dt) (by omega)

/-- Every run of the pagination loop issues one request per attempted page,
with offsets forming the arithmetic sequence `skip, skip + 100, …`. -/
theorem fetchPages_requests_shape (df dt : String) :
    ∀ (net : List PageResult) (skip : Nat),
      (fetchPages df dt net skip).requests =
        (List.range (numAttempts net)).map
          (fun i => mkRequest df dt (skip + 100 * i)) := by
  intro net
  induction net with
  | nil => intro skip; rfl
  | cons p rest ih =>
    intro skip
    cases p with
    | exn => simp [fetchPages, numAttempts, show List.range 1 = [0] from rfl]
    | http status body =>
      rw [fetchPages, numAttempts]
      by_cases hs : status ≠ 200
      · rw [if_pos hs, if_pos hs]; simp [show List.range 1 = [0] from rfl]
      · rw [if_neg hs, if_neg hs]
        by_cases hok : ¬ (processPage body.messages).2 = true
        · rw [if_pos hok, if_pos hok]; simp [show List.range 1 = [0] from rfl]
        · rw [if_neg hok, if_neg hok]
          by_cases hmore : body.moreAvailable.getD false = true
          · rw [if_pos hmore, if_pos hmore]
            show mkRequest df dt skip ::
                (fetchPages df dt rest (skip + 100)).requests =
              (List.range (1 + numAttempts rest)).map
                (fun i => mkRequest df dt (skip + 100 * i))
            rw [ih (skip + 100), mkRequest_seq_cons,
              Nat.add_comm 1 (numAttempts rest)]
          · rw [if_neg hmore, if_neg hmore]
            simp [show List.range 1 = [0] from rfl]

/-- The number of requests a run issues is the number of attempted pages. -/
theorem fetchPages_requests_length (df dt : String) (net : List PageResult)
    (skip : Nat) :
    (fetchPages df dt net skip).requests.length = numAttempts net := by
  rw [fetchPages_requests_shape df dt net skip, List.length_map,
    List.length_range]

/-- A loop that still has a page to consume attempts at least one page. -/
theorem numAttempts_pos (p : PageResult) (rest : List PageResult) :
    1 ≤ numAttempts (p :: rest) := by
  cases p with
  | exn => simp [numAttempts]
  | http status body =>
    rw [numAttempts]
    by_cases hs : status ≠ 200
    · rw [if_pos hs]
    · rw [if_neg hs]
      by_cases hok : ¬ (processPage body.messages).2 = true
      · rw [if_pos hok]
      · rw [if_neg hok]
        by_cases hmore : body.moreAvailable.getD false = true
        · rw [if_pos hmore]; omega
        · rw [if_neg hmore]

/-- Helper for C2: a loop fed a block of clean, continuing pages followed by
a page with a non-200 status stops at that page, keeps exactly the records
of the preceding pages, and issues exactly one request per attempted page. -/
theorem fetchPages_stops_at_bad_status (df dt : String) (s : Nat) (b : PageBody)
    (rest : List PageResult) (hs : s ≠ 200) :
    ∀ (good : List PageBody) (skip : Nat),
      (∀ p ∈ good, (processPage p.messages).2 = true ∧
        p.moreAvailable.getD false = true) →
      fetchPages df dt (good.map (PageResult.http 200) ++
          PageResult.http s b :: rest) skip =
        { messages := (good.map (fun p => (processPage p.messages).1)).flatten,
          requests := (List.range (good.length + 1)).map
            (fun i => mkRequest df dt (skip + 100 * i)),
          outcome := .httpError s } := by
  intro good
  induction good with
  | nil =>
    intro skip _
    simp only [List.map_nil, List.nil_append]
    rw [fetchPages, if_pos hs]
    simp [show List.range 1 = [0] from rfl]
  | cons p good' ih =>
    intro skip hgood
    have hp := hgood p (List.mem_cons_self p good')
    have hrec := ih (skip + 100) (fun q hq => hgood q (List.mem_cons_of_mem _ hq))
    simp only [List.map_cons, List.cons_append]
    rw [fetchPages, if_neg (by simp), if_neg (by simp [hp.1]), if_pos hp.2]
    have hmsgs : (fetchPages df dt (good'.map (PageResult.http 200) ++
        PageResult.http s b :: rest) (skip + 100)).messages =
        (good'.map (fun q => (processPage q.messages).1)).flatten := by
      rw [hrec]
    have hreqs : (fetchPages df dt (good'.map (PageResult.http 200) ++
        PageResult.http s b :: rest) (skip + 100)).requests =
        (List.range (good'.length + 1)).map
          (fun i => mkRequest df dt (skip + 100 + 100 * i)) := by
      rw [hrec]
    have hout : (fetchPages df dt (good'.map (PageResult.http 200) ++
        PageResult.http s b :: rest) (skip + 100)).outcome =
        FetchOutcome.httpError s := by
      rw [hrec]
    show FetchOut.mk _ _ _ = _
    rw [hmsgs, hreqs, hout, FetchOut.mk.injEq]
    refine ⟨by rw [List.flatten_cons], ?_, rfl⟩
    rw [mkRequest_seq_cons, List.length_cons]

/-- Helper for C2: when every page of the run answers HTTP 200 and processes
without exception, the loop never reports an error. -/
theorem fetchPages_ok_no_error (df dt : String) :
    ∀ (net : List PageResult) (skip : Nat), (∀ p ∈ net, pageOk p = true) →
      isErrorOutcome (fetchPages df dt net skip).outcome = false := by
  intro net
  induction net with
  | nil => intro skip _; rfl
  | cons p rest ih =>
    intro skip hok
    have hp := hok p (List.mem_cons_self p rest)
    have htail : ∀ q ∈ rest, pageOk q = true :=
      fun q hq => hok q (List.mem_cons_of_mem _ hq)
    cases p with
    | exn => simp [pageOk] at hp
    | http status body =>
      simp only [pageOk, Bool.and_eq_true, decide_eq_true_eq] at hp
      rw [fetchPages, if_neg (by simp [hp.1]), if_neg (by simp [hp.2])]
      by_cases hmore : body.moreAvailable.getD false = true
      · rw [if_pos hmore]
        exact ih (skip + 100) htail
      · rw [if_neg hmore]; rfl

/-! ### C2 — partial results on an HTTP error -/

/-- C2, counterexample to the claim as stated: the source tests
`status_code != 200`, not "non-2xx".  On a first page answering HTTP 201 — a
2xx status — with `moreAvailable` true, the loop terminates early with an
HTTP error after a single request, never asking for the available second
page. -/
theorem fetch_early_termination_on_2xx :
    (fetch_data ⟨2026, 1, 1⟩ ⟨2026, 1, 2⟩
        [.http 201 { messages := [], moreAvailable := some true },
         .http 200 lastPage]).outcome = .httpError 201 ∧
    (fetch_data ⟨2026, 1, 1⟩ ⟨2026, 1, 2⟩
        [.http 201 { messages := [], moreAvailable := some true },
         .http 200 lastPage]).requests.length = 1 ∧
    (200 ≤ 201 ∧ 201 < 300) := by
  refine ⟨by decide, rfl, by decide⟩

/-- C2, amended: a fetch whose pages process cleanly until one answers a
status other than 200 (which covers every non-2xx status) terminates the
loop at that page, issues no request beyond it, and returns exactly the
records accumulated from the preceding pages; and a run whose pages all
answer 200 and process cleanly never reports an error — so error termination
happens exactly for statuses other than 200 (non-200 2xx ones such as 201
included) and for exceptions. -/
theorem fetch_http_error_partial_results :
    (∀ (df dt : PyDate) (good : List PageBody) (s : Nat) (b : PageBody)
        (rest : List PageResult),
      (∀ p ∈ good, (processPage p.messages).2 = true ∧
        p.moreAvailable.getD false = true) →
      s ≠ 200 →
      fetch_data df dt (good.map (PageResult.http 200) ++
          PageResult.http s b :: rest) =
        { messages := (good.map (fun p => (processPage p.messages).1)).flatten,
          requests := (List.range (good.length + 1)).map
            (fun i => mkRequest (strftimeYMD df) (strftimeYMD dt) (100 * i)),
          outcome := .httpError s }) ∧
    (∀ (df dt : PyDate) (net : List PageResult), (∀ p ∈ net, pageOk p = true) →
      isErrorOutcome (fetch_data df dt net).outcome = false) := by
  constructor
  · intro df dt good s b rest hgood hs
    rw [fetch_data, fetchPages_stops_at_bad_status _ _ s b rest hs good 0 hgood]
    simp
  · intro df dt net hok
    exact fetchPages_ok_no_error _ _ net 0 hok

/-- C2, witness: one clean page with one emitted record, then an HTTP 500 —
the fetch returns exactly the page-1 record, stops after two requests, and
reports the 500; and a clean single-page all-200 run reports no error. -/
theorem fetch_http_error_partial_results_witness :
    fetch_data ⟨2026, 1, 1⟩ ⟨2026, 1, 2⟩
        ([samplePage].map (PageResult.http 200) ++
          PageResult.http 500 lastPage :: []) =
      { messages := ([samplePage].map (fun p => (processPage p.messages).1)).flatten,
        requests := (List.range 2).map
          (fun i => mkRequest (strftimeYMD ⟨2026, 1, 1⟩)
            (strftimeYMD ⟨2026, 1, 2⟩) (100 * i)),
        outcome := .httpError 500 } ∧
    isErrorOutcome (fetch_data ⟨2026, 1, 1⟩ ⟨2026, 1, 2⟩
        [.http 200 lastPage]).outcome = false := by
  constructor
  · exact fetch_http_error_partial_results.1 ⟨2026, 1, 1⟩ ⟨2026, 1, 2⟩
      [samplePage] 500 lastPage [] (by decide) (by decide)
  · exact fetch_http_error_partial_results.2 ⟨2026, 1, 1⟩ ⟨2026, 1, 2⟩
      [.http 200 lastPage] (by decide)

/-! ### C7 — request bodies and offset advancement -/

/-- C7, counterexample to the claim as stated: the request body field
`forward` does not carry the boolean `false` — the source dict on line 170
holds the string literal `"false"`, a different JSON value. -/
theorem fetch_forward_counterexample :
    (fetch_data ⟨2026, 1, 1⟩ ⟨2026, 1, 2⟩
        [.http 200 lastPage]).requests.map (fun r => r.forward) =
      [Json.jstr "false"] ∧
    Json.jstr "false" ≠ Json.jbool false := by
  exact ⟨rfl, fun h => Json.noConfusion h⟩

/-- C7, amended: the n-th page request (1-indexed) carries skip equal to
`100 * (n - 1)`, limit 100, `dateFrom` and `dateTo` rendered by the
`%Y-%m-%d` format, and `forward` equal to the JSON string `"false"` (not the
boolean); and after a cleanly processed 200 page, a further request is made
— with skip advanced by the page size — exactly when the page reported
`moreAvailable` (defaulting to false when the flag is absent). -/
theorem fetch_request_bodies_spec :
    (∀ (df dt : PyDate) (net : List PageResult),
      (fetch_data df dt net).requests =
        (List.range (numAttempts net)).map
          (fun i => { skip := 100 * i, limit := 100,
                      dateFrom := strftimeYMD df, dateTo := strftimeYMD dt,
                      forward := Json.jstr "false" })) ∧
    (∀ (df dt : PyDate) (b : PageBody) (rest : List PageResult),
      rest ≠ [] → (processPage b.messages).2 = true →
      (1 < (fetch_data df dt (PageResult.http 200 b :: rest)).requests.length ↔
        b.moreAvailable.getD false = true)) := by
  constructor
  · intro df dt net
    rw [fetch_data, fetchPages_requests_shape]
    refine List.map_congr_left ?_
    intro i _
    show mkRequest _ _ (0 + 100 * i) = _
    rw [Nat.zero_add]
    rfl
  · intro df dt b rest hrest hclean
    rw [fetch_data, fetchPages_requests_length, numAttempts,
      if_neg (by simp), if_neg (by simp [hclean])]
    by_cases hmore : b.moreAvailable.getD false = true
    · rw [if_pos hmore, hmore]
      rcases rest with _ | ⟨q, rest'⟩
      · exact absurd rfl hrest
      · simp only [iff_true]
        have := numAttempts_pos q rest'
        omega
    · rw [if_neg hmore]
      simp only [Nat.lt_irrefl, false_iff]
      exact fun h => hmore h

/-- C7, witness: a two-page fetch (a clean continuing page, then a final
page) issues exactly the two expected bodies, and the advancement criterion
instantiates at the first page. -/
theorem fetch_request_bodies_spec_witness :
    (fetch_data ⟨2026, 1, 1⟩ ⟨2026, 1, 2⟩
        [.http 200 samplePage, .http 200 lastPage]).requests =
      (List.range (numAttempts [.http 200 samplePage, .http 200 lastPage])).map
        (fun i => { skip := 100 * i, limit := 100,
                    dateFrom := strftimeYMD ⟨2026, 1, 1⟩,
                    dateTo := strftimeYMD ⟨2026, 1, 2⟩,
                    forward := Json.jstr "false" }) ∧
    (1 < (fetch_data ⟨2026, 1, 1⟩ ⟨2026, 1, 2⟩
        (PageResult.http 200 samplePage :: [PageResult.http 200 lastPage])).requests.length ↔
      samplePage.moreAvailable.getD false = true) := by
  constructor
  · exact fetch_request_bodies_spec.1 ⟨2026, 1, 1⟩ ⟨2026, 1, 2⟩
      [.http 200 samplePage, .http 200 lastPage]
  · exact fetch_request_bodies_spec.2 ⟨2026, 1, 1⟩ ⟨2026, 1, 2⟩ samplePage
      [PageResult.http 200 lastPage] (by simp) (by decide)

/-! ### C8 — the sentinel never reaches the final output -/

/-- C8: no pair of the final output has the sentinel Query — the filter of
line 280 removes every such pair, and the final sort only permutes what the
filter kept; in particular a session consisting of a single bot message
yields the sentinel pair in the intermediate `final_pairs` list and nothing
in the final output. -/
theorem process_to_pairs_no_sentinel :
    (∀ {τ : Type} [LinearOrder τ] (msgs : List (NormalizedMessage τ))
        (p : ConversationPair τ),
      p ∈ process_to_pairs msgs → p.Query ≠ sentinelQuery) ∧
    (rawPairs [(⟨5, "s", "u", .BOT, "hello"⟩ : NormalizedMessage Nat)] =
        [(⟨5, "s", "u", sentinelQuery, "hello"⟩ : ConversationPair Nat)] ∧
      process_to_pairs
        [(⟨5, "s", "u", .BOT, "hello"⟩ : NormalizedMessage Nat)] = []) := by
  refine ⟨?_, by decide, by decide⟩
  intro τ _ msgs p hp
  have h1 : p ∈ (rawPairs msgs).filter (fun q => q.Query ≠ sentinelQuery) :=
    (List.perm_insertionSort _ _).subset hp
  exact of_decide_eq_true (List.mem_filter.mp h1).2

/-- C8, witness: the single pair produced by a one-query session is not the
sentinel. -/
theorem process_to_pairs_no_sentinel_witness :
    (⟨1, "s", "u", "hi", ""⟩ : ConversationPair Nat).Query ≠ sentinelQuery :=
  process_to_pairs_no_sentinel.1
    [(⟨1, "s", "u", .USER, "hi"⟩ : NormalizedMessage Nat)] _ (by decide)

/-! ### C9 — the final output is sorted descending by timestamp -/

/-- C9: the output of `process_to_pairs` is always sorted descending by
Timestamp across all sessions; on two sessions with pairs at 10:00 and 09:00
and at 09:30 (minute-of-day timestamps 600, 540, 570) the output order is
10:00, 09:30, 09:00. -/
theorem process_to_pairs_sorted_desc :
    (∀ {τ : Type} [LinearOrder τ] (msgs : List (NormalizedMessage τ)),
      List.Sorted (fun a b : ConversationPair τ => b.Timestamp ≤ a.Timestamp)
        (process_to_pairs msgs)) ∧
    (process_to_pairs
        [(⟨540, "s1", "u", .USER, "a"⟩ : NormalizedMessage Nat),
         ⟨600, "s1", "u", .USER, "b"⟩, ⟨570, "s2", "u", .USER, "c"⟩] =
      [(⟨600, "s1", "u", "b", ""⟩ : ConversationPair Nat),
       ⟨570, "s2", "u", "c", ""⟩, ⟨540, "s1", "u", "a", ""⟩]) := by
  refine ⟨?_, by decide⟩
  intro τ _ msgs
  haveI : IsTotal (ConversationPair τ) (fun a b => b.Timestamp ≤ a.Timestamp) :=
    ⟨fun a b => le_total b.Timestamp a.Timestamp⟩
  haveI : IsTrans (ConversationPair τ) (fun a b => b.Timestamp ≤ a.Timestamp) :=
    ⟨fun _ _ _ h1 h2 => le_trans h2 h1⟩
  exact List.sorted_insertionSort _ _

/-! ### C10 — the reconstructor leaves its input untouched -/

/-- Inserting a handle and inserting the record it points to commute with
dereferencing. -/
theorem orderedInsert_refs_map {τ : Type} [LinearOrder τ] [Inhabited τ]
    (store : List (NormalizedMessage τ)) (i : Nat) :
    ∀ js : List Nat,
      (List.orderedInsert
          (fun i j => (lookupMsg store i).Timestamp ≤ (lookupMsg store j).Timestamp)
          i js).map (lookupMsg store) =
        List.orderedInsert (fun a b => a.Timestamp ≤ b.Timestamp)
          (lookupMsg store i) (js.map (lookupMsg store)) := by
  intro js
  induction js with
  | nil => rfl
  | cons j js ih =>
    simp only [List.orderedInsert, List.map_cons]
    by_cases h : (lookupMsg store i).Timestamp ≤ (lookupMsg store j).Timestamp
    · rw [if_pos h, if_pos h, List.map_cons, List.map_cons]
    · rw [if_neg h, if_neg h, List.map_cons, ih]

/-- Sorting the handles and sorting the records commute with dereferencing. -/
theorem sortRefs_map {τ : Type} [LinearOrder τ] [Inhabited τ]
    (store : List (NormalizedMessage τ)) :
    ∀ is : List Nat,
      (sortRefs store is).map (lookupMsg store) =
        sortByTimestamp (is.map (lookupMsg store)) := by
  intro is
  induction is with
  | nil => rfl
  | cons i is ih =>
    simp only [sortRefs, sortByTimestamp] at ih ⊢
    simp only [List.insertionSort, List.map_cons]
    rw [orderedInsert_refs_map, ih]

/-- The per-session walk on handles equals the walk on the records. -/
theorem walkRefs_map {τ : Type} [LinearOrder τ] [Inhabited τ]
    (store : List (NormalizedMessage τ)) (sid : String) :
    ∀ (is : List Nat) (cur : Option (ConversationPair τ)),
      walkRefs store sid is cur =
        walkSession sid (is.map (lookupMsg store)) cur := by
  intro is
  induction is with
  | nil => intro cur; cases cur <;> rfl
  | cons i is ih =>
    intro cur
    cases hS : (lookupMsg store i).Sender with
    | USER =>
      simp only [List.map_cons, walkRefs, walkSession, hS]
      rw [ih]
    | BOT =>
      cases cur with
      | some p =>
        simp only [List.map_cons, walkRefs, walkSession, hS]
        rw [ih]
      | none =>
        simp only [List.map_cons, walkRefs, walkSession, hS]
        rw [ih]

/-- Grouping handles and grouping records commute with dereferencing. -/
theorem addToGroups_refs_map {τ : Type} [Inhabited τ]
    (store : List (NormalizedMessage τ)) (k : String) (i : Nat) :
    ∀ gs : List (String × List Nat),
      (addToGroups k i gs).map (fun g => (g.1, g.2.map (lookupMsg store))) =
        addToGroups k (lookupMsg store i)
          (gs.map (fun g => (g.1, g.2.map (lookupMsg store)))) := by
  intro gs
  induction gs with
  | nil => rfl
  | cons g gs ih =>
    rcases g with ⟨k', ms⟩
    simp only [addToGroups, List.map_cons]
    by_cases h : k' = k
    · rw [if_pos h, if_pos h, List.map_cons]
      simp
    · rw [if_neg h, if_neg h, List.map_cons, ih]

/-- The grouping fold on handles equals the grouping fold on records. -/
theorem groupRefs_map_aux {τ : Type} [Inhabited τ]
    (store : List (NormalizedMessage τ)) :
    ∀ (raw : List Nat) (gs : List (String × List Nat)),
      (raw.foldl (fun acc i => addToGroups (lookupMsg store i).SessionID i acc)
          gs).map (fun g => (g.1, g.2.map (lookupMsg store))) =
        (raw.map (lookupMsg store)).foldl
          (fun acc m => addToGroups m.SessionID m acc)
          (gs.map (fun g => (g.1, g.2.map (lookupMsg store)))) := by
  intro raw
  induction raw with
  | nil => intro gs; rfl
  | cons i raw ih =>
    intro gs
    rw [List.map_cons, List.foldl_cons, List.foldl_cons, ih,
      addToGroups_refs_map]

/-- Grouping the handles dereferences to `groupBySession`. -/
theorem groupRefs_map {τ : Type} [LinearOrder τ] [Inhabited τ]
    (store : List (NormalizedMessage τ)) (raw : List Nat) :
    (groupRefs store raw).map (fun g => (g.1, g.2.map (lookupMsg store))) =
      groupBySession (raw.map (lookupMsg store)) :=
  groupRefs_map_aux store raw []

/-- The session fold on handles equals the session fold on records. -/
theorem foldWalk_refs_map {τ : Type} [LinearOrder τ] [Inhabited τ]
    (store : List (NormalizedMessage τ)) :
    ∀ (gs : List (String × List Nat)) (acc : List (ConversationPair τ)),
      gs.foldl (fun a g => a ++ walkRefs store g.1 (sortRefs store g.2) none) acc =
        (gs.map (fun g => (g.1, g.2.map (lookupMsg store)))).foldl
          (fun a g => a ++ walkSession g.1 (sortByTimestamp g.2) none) acc := by
  intro gs
  induction gs with
  | nil => intro acc; rfl
  | cons g gs ih =>
    intro acc
    rw [List.map_cons, List.foldl_cons, List.foldl_cons, ih,
      walkRefs_map, sortRefs_map]

/-- C10: `process_to_pairs` does not modify its input.  At the reference
level — the heap of message records explicit, the caller holding a list of
handles into it — the call returns the heap exactly as it received it (every
record keeps every field value, the list keeps its length and order), and
the pairs it returns are `process_to_pairs` of the records the handles
pointed to before the call: the per-session sort happens on the internal
per-session handle lists, never on the sequence of the caller. -/
theorem process_to_pairs_refs_frame {τ : Type} [LinearOrder τ] [Inhabited τ]
    (store : List (NormalizedMessage τ)) (raw : List Nat) :
    process_to_pairs_refs store raw =
      (process_to_pairs (raw.map (lookupMsg store)), store) := by
  rw [process_to_pairs_refs, process_to_pairs, rawPairs]
  rw [foldWalk_refs_map, groupRefs_map]

/-! ### C1 — round trip of a two-query session -/

/-- Folding the grouping step over messages of one session appends them, in
order, to the group of that session. -/
theorem groupBySession_fold_single {τ : Type} [LinearOrder τ] (s : String) :
    ∀ (l ms : List (NormalizedMessage τ)), (∀ m ∈ l, m.SessionID = s) →
      l.foldl (fun acc m => addToGroups m.SessionID m acc) [(s, ms)] =
        [(s, ms ++ l)] := by
  intro l
  induction l with
  | nil => intro ms _; simp
  | cons m rest ih =>
    intro ms h
    rw [List.foldl_cons, h m (List.mem_cons_self m rest),
      show addToGroups s m [(s, ms)] = [(s, ms ++ [m])] by simp [addToGroups],
      ih (ms ++ [m]) (fun q hq => h q (List.mem_cons_of_mem _ hq))]
    simp

/-- A non-empty message list over a single session groups to that one
session holding the list in arrival order. -/
theorem groupBySession_single {τ : Type} [LinearOrder τ] (s : String)
    (l : List (NormalizedMessage τ)) (hne : l ≠ [])
    (h : ∀ m ∈ l, m.SessionID = s) :
    groupBySession l = [(s, l)] := by
  rcases l with _ | ⟨m, rest⟩
  · exact absurd rfl hne
  · rw [groupBySession, List.foldl_cons]
    rw [show addToGroups m.SessionID m [] = [(m.SessionID, [m])] from rfl,
      h m (List.mem_cons_self m rest),
      groupBySession_fold_single s rest [m]
        (fun q hq => h q (List.mem_cons_of_mem _ hq))]
    simp

/-- C1: a session holding USER "Q1", BOT "A1", BOT "A2", USER "Q2" at
strictly increasing times — delivered in any arrival order — reconstructs to
exactly two pairs: Q2 with empty Response (newest first in the output), and
Q1 with the two bot turns joined by the newline separator. -/
theorem process_to_pairs_round_trip {τ : Type} [LinearOrder τ]
    (t1 t2 t3 t4 : τ) (h12 : t1 < t2) (h23 : t2 < t3) (h34 : t3 < t4)
    (l : List (NormalizedMessage τ))
    (hperm : l.Perm
      [⟨t1, "s", "u1", .USER, "Q1"⟩, ⟨t2, "s", "bot", .BOT, "A1"⟩,
       ⟨t3, "s", "bot", .BOT, "A2"⟩, ⟨t4, "s", "u1", .USER, "Q2"⟩]) :
    process_to_pairs l =
      [⟨t4, "s", "u1", "Q2", ""⟩, ⟨t1, "s", "u1", "Q1", "A1 \n A2"⟩] := by
  have hsess : ∀ m ∈ l, m.SessionID = "s" := by
    intro m hm
    have hmM := hperm.subset hm
    fin_cases hmM <;> rfl
  have hne : l ≠ [] := by
    intro h
    have := hperm.length_eq
    rw [h] at this
    simp at this
  have hgroup := groupBySession_single "s" l hne hsess
  haveI : IsTotal (NormalizedMessage τ)
      (fun a b => a.Timestamp ≤ b.Timestamp) :=
    ⟨fun a b => le_total a.Timestamp b.Timestamp⟩
  haveI : IsTrans (NormalizedMessage τ)
      (fun a b => a.Timestamp ≤ b.Timestamp) :=
    ⟨fun _ _ _ h1 h2 => le_trans h1 h2⟩
  haveI : IsAntisymm (NormalizedMessage τ)
      (fun a b => a.Timestamp < b.Timestamp) :=
    ⟨fun _ _ h1 h2 => ((lt_asymm h1) h2).elim⟩
  have hperm2 : (sortByTimestamp l).Perm
      [⟨t1, "s", "u1", .USER, "Q1"⟩, ⟨t2, "s", "bot", .BOT, "A1"⟩,
       ⟨t3, "s", "bot", .BOT, "A2"⟩, ⟨t4, "s", "u1", .USER, "Q2"⟩] :=
    (List.perm_insertionSort _ l).trans hperm
  have hsorted : List.Sorted (fun a b : NormalizedMessage τ =>
      a.Timestamp ≤ b.Timestamp) (sortByTimestamp l) :=
    List.sorted_insertionSort _ l
  have hMne : List.Pairwise (fun a b : NormalizedMessage τ =>
      a.Timestamp ≠ b.Timestamp)
      [⟨t1, "s", "u1", .USER, "Q1"⟩, ⟨t2, "s", "bot", .BOT, "A1"⟩,
       ⟨t3, "s", "bot", .BOT, "A2"⟩, ⟨t4, "s", "u1", .USER, "Q2"⟩] := by
    refine List.Pairwise.cons (fun b hb => ?_)
      (List.Pairwise.cons (fun b hb => ?_)
        (List.Pairwise.cons (fun b hb => ?_) (List.pairwise_singleton _ _)))
    · fin_cases hb
      · exact ne_of_lt h12
      · exact ne_of_lt (h12.trans h23)
      · exact ne_of_lt ((h12.trans h23).trans h34)
    · fin_cases hb
      · exact ne_of_lt h23
      · exact ne_of_lt (h23.trans h34)
    · fin_cases hb
      · exact ne_of_lt h34
  have hneq : List.Pairwise (fun a b : NormalizedMessage τ =>
      a.Timestamp ≠ b.Timestamp) (sortByTimestamp l) :=
    (List.Perm.pairwise_iff (fun h => h.symm) hperm2).mpr hMne
  have hstrict : List.Sorted (fun a b : NormalizedMessage τ =>
      a.Timestamp < b.Timestamp) (sortByTimestamp l) :=
    (hsorted.and hneq).imp (fun h => lt_of_le_of_ne h.1 h.2)
  have hMstrict : List.Sorted (fun a b : NormalizedMessage τ =>
      a.Timestamp < b.Timestamp)
      [⟨t1, "s", "u1", .USER, "Q1"⟩, ⟨t2, "s", "bot", .BOT, "A1"⟩,
       ⟨t3, "s", "bot", .BOT, "A2"⟩, ⟨t4, "s", "u1", .USER, "Q2"⟩] := by
    refine List.Pairwise.cons (fun b hb => ?_)
      (List.Pairwise.cons (fun b hb => ?_)
        (List.Pairwise.cons (fun b hb => ?_) (List.pairwise_singleton _ _)))
    · fin_cases hb
      · exact h12
      · exact h12.trans h23
      · exact (h12.trans h23).trans h34
    · fin_cases hb
      · exact h23
      · exact h23.trans h34
    · fin_cases hb
      · exact h34
  have hsort_eq := List.eq_of_perm_of_sorted hperm2 hstrict hMstrict
  rw [process_to_pairs, rawPairs, hgroup, List.foldl_cons, List.foldl_nil]
  rw [List.nil_append]
  show (List.filter _ (walkSession "s" (sortByTimestamp l) none)).insertionSort _ =
    _
  rw [hsort_eq]
  simp [walkSession, sentinelQuery, List.insertionSort, List.orderedInsert,
    show ¬ (t4 ≤ t1) from not_le.mpr (h12.trans (h23.trans h34))]

/-- C1, witness at timestamps 1 < 2 < 3 < 4 with the messages delivered in
reverse-chronological arrival order (as the fetch collects them). -/
theorem process_to_pairs_round_trip_witness :
    process_to_pairs
      [(⟨4, "s", "u1", .USER, "Q2"⟩ : NormalizedMessage Nat),
       ⟨3, "s", "bot", .BOT, "A2"⟩, ⟨2, "s", "bot", .BOT, "A1"⟩,
       ⟨1, "s", "u1", .USER, "Q1"⟩] =
      [⟨4, "s", "u1", "Q2", ""⟩, ⟨1, "s", "u1", "Q1", "A1 \n A2"⟩] :=
  process_to_pairs_round_trip 1 2 3 4 (by decide) (by decide) (by decide) _
    (by decide)

end FocusDashboard
